import Mathlib

/-!
Shallow embedding of the chunk face-culling / incremental mesh-maintenance
core of the voxel renderer (src/src/chunk.rs, src/src/world.rs,
src/src/block.rs).

Modelling conventions:
* `i32` values are `Int`; the `as usize` / `as u64` casts that appear in the
  source are modelled explicitly (`usizeCast`, `i32wrap`).
* The `f32` values produced here (cube corner offsets of ±0.5 translated by
  small integers, and atlas coordinates `(origin + c·16)/256` with origins
  that are multiples of 16) are all exactly representable dyadic rationals,
  so they are modelled by `ℚ`: every `f32` operation the code performs on
  them is exact.
* The GPU vertex/index buffers are slot-addressed flat arrays; a
  `queue.write_buffer` at byte offset `20·s` (resp. `4·s`) of `k` vertices
  (resp. `k` `u32`s) is modelled as overwriting slots `[s, s+k)` of a total
  function `Nat → ChunkVertex` (resp. `Nat → Nat`).
-/

namespace Voxel

/-- Model of `Vector3<i32>` of cgmath. -/
structure V3 where
  x : Int
  y : Int
  z : Int
deriving DecidableEq, Repr

/-- Model of `Vector2<i32>` of cgmath. -/
structure V2 where
  x : Int
  y : Int
deriving DecidableEq, Repr

/-- A `Vector3<f32>` whose value is an exact dyadic rational. -/
structure V3q where
  x : ℚ
  y : ℚ
  z : ℚ
deriving DecidableEq, Repr

/-- A `Vector2<f32>` whose value is an exact dyadic rational. -/
structure V2q where
  x : ℚ
  y : ℚ
deriving DecidableEq, Repr

/-- Rust `i as usize` for `i : i32` (sign extension, i.e. reduction mod 2^64). -/
def usizeCast (i : Int) : Nat := (i % (2 ^ 64 : Int)).toNat

/-- Wrap-around semantics of release-mode `i32` arithmetic. -/
def i32wrap (i : Int) : Int := (i + 2 ^ 31) % 2 ^ 32 - 2 ^ 31

/-- Model of `chunk.rs`: `CHUNK_WIDTH`. -/
def CHUNK_WIDTH : Nat := 16
/-- Model of `chunk.rs`: `CHUNK_HEIGHT`. -/
def CHUNK_HEIGHT : Nat := 256
/-- Model of `chunk.rs`: `CHUNK_DEPTH`. -/
def CHUNK_DEPTH : Nat := 16
/-- Model of `chunk.rs`: `CHUNK_SIZE = CHUNK_WIDTH * CHUNK_HEIGHT * CHUNK_DEPTH`. -/
def CHUNK_SIZE : Nat := CHUNK_WIDTH * CHUNK_HEIGHT * CHUNK_DEPTH
/-- Model of `chunk.rs`: `ATLAS_SIZE`. -/
def ATLAS_SIZE : Nat := 256
/-- Model of `chunk.rs`: `TEXTURE_SIZE`. -/
def TEXTURE_SIZE : Nat := 16

/-- Model of `block.rs`: the closed block enumeration produced by `init_blocks!`. -/
inductive Block where
  | Air : Block
  | Grass : Block
  | Dirt : Block
  | Stone : Block
deriving DecidableEq, Repr

/-- Model of `if let Block::Air(_) = block { true } else { false }` (world.rs line 90). -/
def Block.is_air : Block → Bool
  | .Air => true
  | _ => false

/-- Model of `block.rs`: `TexCoordConfig`. -/
structure TexCoordConfig where
  front : V2q
  back : V2q
  top : V2q
  bottom : V2q
  left : V2q
  right : V2q
deriving DecidableEq, Repr

/-- Model of `TexCoordConfig::zero`. -/
def TexCoordConfig.zero : TexCoordConfig :=
  ⟨⟨0, 0⟩, ⟨0, 0⟩, ⟨0, 0⟩, ⟨0, 0⟩, ⟨0, 0⟩, ⟨0, 0⟩⟩

/-- Model of `TexCoordConfig::all_same`. -/
def TexCoordConfig.all_same (v : V2q) : TexCoordConfig := ⟨v, v, v, v, v, v⟩

/-- Model of `TexCoordConfig::top_bottom_sides`. -/
def TexCoordConfig.top_bottom_sides (t b s : V2q) : TexCoordConfig :=
  ⟨s, s, t, b, s, s⟩

/-- Model of `block.rs`: the per-variant `texture_coordinates` implementations. -/
def Block.texture_coordinates : Block → TexCoordConfig
  | .Air => TexCoordConfig.zero
  | .Grass => TexCoordConfig.top_bottom_sides ⟨0, 0⟩ ⟨32, 0⟩ ⟨16, 0⟩
  | .Dirt => TexCoordConfig.all_same ⟨32, 0⟩
  | .Stone => TexCoordConfig.all_same ⟨48, 0⟩

/-- Model of `TexCoordConfig::to_vec`: the inner `transform` closure,
`origin.add_element_wise(coord.mul(TEXTURE_SIZE as f32)).div(ATLAS_SIZE as f32)`. -/
def transformTex (origin coord : V2q) : V2q :=
  ⟨(origin.x + coord.x * 16) / 256, (origin.y + coord.y * 16) / 256⟩

/-- One face's quad of atlas coordinates in `TexCoordConfig::to_vec`; `sw` is
true for even face indices, where entries 0,1 and 2,3 are swapped. -/
def faceQuad (origin : V2q) (sw : Bool) : List V2q :=
  if sw then
    [transformTex origin ⟨1, 1⟩, transformTex origin ⟨0, 1⟩,
     transformTex origin ⟨0, 0⟩, transformTex origin ⟨1, 0⟩]
  else
    [transformTex origin ⟨0, 1⟩, transformTex origin ⟨1, 1⟩,
     transformTex origin ⟨1, 0⟩, transformTex origin ⟨0, 0⟩]

/-- Model of `TexCoordConfig::to_vec`: faces in order front, back, top, bottom, left,
right, flattened; faces 0, 2, 4 (front, top, left) have the swap applied. -/
def TexCoordConfig.to_vec (c : TexCoordConfig) : List V2q :=
  faceQuad c.front true ++ faceQuad c.back false ++ faceQuad c.top true ++
    faceQuad c.bottom false ++ faceQuad c.left true ++ faceQuad c.right false

/-- Model of `chunk.rs`: `Direction`. -/
inductive Direction where
  | FRONT : Direction
  | BACK : Direction
  | TOP : Direction
  | BOTTOM : Direction
  | LEFT : Direction
  | RIGHT : Direction
deriving DecidableEq, Repr

/-- Model of `Direction::cube_verts`. -/
def Direction.cube_verts : Direction → List V3q
  | .FRONT => [⟨-(1/2), -(1/2), 1/2⟩, ⟨1/2, -(1/2), 1/2⟩, ⟨1/2, 1/2, 1/2⟩, ⟨-(1/2), 1/2, 1/2⟩]
  | .BACK => [⟨1/2, -(1/2), -(1/2)⟩, ⟨-(1/2), -(1/2), -(1/2)⟩, ⟨-(1/2), 1/2, -(1/2)⟩, ⟨1/2, 1/2, -(1/2)⟩]
  | .TOP => [⟨-(1/2), 1/2, 1/2⟩, ⟨1/2, 1/2, 1/2⟩, ⟨1/2, 1/2, -(1/2)⟩, ⟨-(1/2), 1/2, -(1/2)⟩]
  | .BOTTOM => [⟨-(1/2), -(1/2), -(1/2)⟩, ⟨1/2, -(1/2), -(1/2)⟩, ⟨1/2, -(1/2), 1/2⟩, ⟨-(1/2), -(1/2), 1/2⟩]
  | .LEFT => [⟨-(1/2), -(1/2), -(1/2)⟩, ⟨-(1/2), -(1/2), 1/2⟩, ⟨-(1/2), 1/2, 1/2⟩, ⟨-(1/2), 1/2, -(1/2)⟩]
  | .RIGHT => [⟨1/2, -(1/2), 1/2⟩, ⟨1/2, -(1/2), -(1/2)⟩, ⟨1/2, 1/2, -(1/2)⟩, ⟨1/2, 1/2, 1/2⟩]

/-- Model of `Direction::cube_indices`. -/
def Direction.cube_indices : Direction → List Nat
  | .FRONT => [0, 1, 2, 2, 3, 0]
  | .BACK => [4, 5, 6, 6, 7, 4]
  | .TOP => [8, 9, 10, 10, 11, 8]
  | .BOTTOM => [12, 13, 14, 14, 15, 12]
  | .LEFT => [16, 17, 18, 18, 19, 16]
  | .RIGHT => [20, 21, 22, 22, 23, 20]

/-- Model of `Direction::to_vec3`. -/
def Direction.to_vec3 : Direction → V3
  | .FRONT => ⟨0, 0, 1⟩
  | .BACK => ⟨0, 0, -1⟩
  | .TOP => ⟨0, 1, 0⟩
  | .BOTTOM => ⟨0, -1, 0⟩
  | .LEFT => ⟨-1, 0, 0⟩
  | .RIGHT => ⟨1, 0, 0⟩

/-- Model of `Direction::index`. -/
def Direction.index : Direction → Nat
  | .FRONT => 0
  | .BACK => 1
  | .TOP => 2
  | .BOTTOM => 3
  | .LEFT => 4
  | .RIGHT => 5

/-- Model of `Direction::get_opposite`. -/
def Direction.get_opposite : Direction → Direction
  | .FRONT => .BACK
  | .BACK => .FRONT
  | .TOP => .BOTTOM
  | .BOTTOM => .TOP
  | .LEFT => .RIGHT
  | .RIGHT => .LEFT

/-- The face iteration order `[FRONT, BACK, TOP, BOTTOM, LEFT, RIGHT]` used by
both `ChunkMesh::set_block` and `World::set_block`. -/
def Direction.all : List Direction :=
  [.FRONT, .BACK, .TOP, .BOTTOM, .LEFT, .RIGHT]

/-- Model of `ChunkMesh::flatten_3d`:
`(x + CHUNK_WIDTH as i32 * (y + (CHUNK_HEIGHT >> 1) as i32 + CHUNK_HEIGHT as i32 * z)) as u64`,
with the `i32` wrap-around of the inner arithmetic and the sign-extending
`i32 -> u64` cast made explicit. -/
def flatten_3d (p : V3) : Nat :=
  usizeCast (i32wrap (p.x + 16 * (p.y + 128 + 256 * p.z)))

/-- A local position that lies inside the chunk dimensions (after the
documented Y bias): `x ∈ [0,16)`, `y ∈ [-128,128)`, `z ∈ [0,16)`. -/
def validPos (p : V3) : Prop :=
  0 ≤ p.x ∧ p.x < 16 ∧ -128 ≤ p.y ∧ p.y < 128 ∧ 0 ≤ p.z ∧ p.z < 16

instance (p : V3) : Decidable (validPos p) := by
  unfold validPos; infer_instance

/-- Model of `chunk.rs`: `ChunkVertex { position, tex_coord }`. -/
structure ChunkVertex where
  position : V3q
  tex_coord : V2q
deriving DecidableEq, Repr

/-- The zeroed vertex that fills absent face slots. -/
def ChunkVertex.zero : ChunkVertex := ⟨⟨0, 0, 0⟩, ⟨0, 0⟩⟩

/-- The `k`-th of the 4 vertices `ChunkMesh::add_face` computes for
`(chunk_position, face, block)`: `cube_verts[k] + position` zipped with entry
`face.index()*4 + k` of the block's `to_vec` atlas quad list. -/
def faceVertex (p : V3) (d : Direction) (b : Block) (k : Nat) : ChunkVertex :=
  { position :=
      let cv := d.cube_verts.getD k ⟨0, 0, 0⟩
      ⟨cv.x + (p.x : ℚ), cv.y + (p.y : ℚ), cv.z + (p.z : ℚ)⟩
    tex_coord := (b.texture_coordinates.to_vec.drop (d.index * 4)).getD k ⟨0, 0⟩ }

/-- First vertex slot of cell `p`'s face `d`: `flatten*24 + index(d)*4`
(the vertex byte offset of `ChunkMesh::get_buf_offset` divided by
`size_of::<ChunkVertex>() = 20`). -/
def vertSlotBase (p : V3) (d : Direction) : Nat :=
  flatten_3d p * 24 + d.index * 4

/-- First index slot of cell `p`'s face `d`: `flatten*36 + index(d)*6`
(the index byte offset of `ChunkMesh::get_buf_offset` divided by
`size_of::<u32>() = 4`). -/
def idxSlotBase (p : V3) (d : Direction) : Nat :=
  flatten_3d p * 36 + d.index * 6

/-- Model of `ChunkMesh::get_buf_offset`, in bytes exactly as in the source
(`size_of::<ChunkVertex>() = 20`, `size_of::<u32>() = 4`). -/
def get_buf_offset (p : V3) (face : Direction) : Nat × Nat :=
  (flatten_3d p * 20 * 24 + face.index * 20 * 4,
   flatten_3d p * 4 * 36 + face.index * 4 * 6)

/-- Slot-level description of the vertex write of `ChunkMesh::add_face`:
vertex slot `j` receives a value exactly when `j` lies in
`[vertSlotBase, vertSlotBase + 4)`. -/
def faceVertSlot? (p : V3) (d : Direction) (b : Block) (j : Nat) : Option ChunkVertex :=
  let base := vertSlotBase p d
  if base ≤ j ∧ j < base + 4 then some (faceVertex p d b (j - base)) else none

/-- Slot-level description of the index write of `ChunkMesh::add_face`:
index slot `j` receives `cube_indices[j-base] + 24*flatten` exactly when `j`
lies in `[idxSlotBase, idxSlotBase + 6)`. -/
def faceIdxSlot? (p : V3) (d : Direction) (j : Nat) : Option Nat :=
  let base := idxSlotBase p d
  if base ≤ j ∧ j < base + 6 then
    some (d.cube_indices.getD (j - base) 0 + 24 * flatten_3d p)
  else none

/-- Slot-level description of the vertex write of `ChunkMesh::remove_face`:
the same 4 slots, zeroed. -/
def remVertSlot? (p : V3) (d : Direction) (j : Nat) : Option ChunkVertex :=
  let base := vertSlotBase p d
  if base ≤ j ∧ j < base + 4 then some ChunkVertex.zero else none

/-- Slot-level description of the index write of `ChunkMesh::remove_face`:
the same 6 slots, zeroed. -/
def remIdxSlot? (p : V3) (d : Direction) (j : Nat) : Option Nat :=
  let base := idxSlotBase p d
  if base ≤ j ∧ j < base + 6 then some 0 else none

/-- The whole-cell vertex zeroing of the Air branch of
`ChunkMesh::set_block` (24 slots at `flatten*24`). -/
def clearVertSlot? (p : V3) (j : Nat) : Option ChunkVertex :=
  if flatten_3d p * 24 ≤ j ∧ j < flatten_3d p * 24 + 24 then some ChunkVertex.zero else none

/-- The whole-cell index zeroing of the Air branch of
`ChunkMesh::set_block` (36 slots at `flatten*36`). -/
def clearIdxSlot? (p : V3) (j : Nat) : Option Nat :=
  if flatten_3d p * 36 ≤ j ∧ j < flatten_3d p * 36 + 36 then some 0 else none

/-- The slot-addressed mesh state of one chunk: the host image of the vertex
buffer (`24*CHUNK_SIZE` slots) and index buffer (`36*CHUNK_SIZE` slots), plus
the chunk's dynamic uniform offset. -/
structure MeshBuf where
  verts : Nat → ChunkVertex
  inds : Nat → Nat
  uniform_offset : Nat

/-- Overwrite the slots selected by `fv` / `fi`, keep the rest. -/
def MeshBuf.ovr (m : MeshBuf) (fv : Nat → Option ChunkVertex) (fi : Nat → Option Nat) :
    MeshBuf :=
  { m with
    verts := fun j => (fv j).getD (m.verts j)
    inds := fun j => (fi j).getD (m.inds j) }

/-- Model of `ChunkMesh::add_face`. -/
def MeshBuf.add_face (m : MeshBuf) (p : V3) (d : Direction) (b : Block) : MeshBuf :=
  m.ovr (faceVertSlot? p d b) (faceIdxSlot? p d)

/-- Model of `ChunkMesh::remove_face`. -/
def MeshBuf.remove_face (m : MeshBuf) (p : V3) (d : Direction) : MeshBuf :=
  m.ovr (remVertSlot? p d) (remIdxSlot? p d)

/-- The two whole-cell zero writes at the top of the Air branch of
`ChunkMesh::set_block`. -/
def MeshBuf.clear_cell (m : MeshBuf) (p : V3) : MeshBuf :=
  m.ovr (clearVertSlot? p) (clearIdxSlot? p)

/-- A freshly created mesh: both buffers zero-initialised
(`ChunkMesh::new` fills them from `[0u32; ...]`). -/
def freshMesh (uo : Nat) : MeshBuf :=
  { verts := fun _ => ChunkVertex.zero, inds := fun _ => 0, uniform_offset := uo }

/-- Bounds-checked read of the dense block grid, shared by
`Chunk::get_block` of chunk.rs and the chunk reads of world.rs:
`position.y += CHUNK_HEIGHT >> 1`, cast every coordinate `as usize`, then
`ndarray::Array3::get` (checks each axis against the dims `(16, 256, 16)`). -/
def blockAt (blocks : Nat → Nat → Nat → Block) (p : V3) : Option Block :=
  let xi := usizeCast p.x
  let yi := usizeCast (i32wrap (p.y + 128))
  let zi := usizeCast p.z
  if xi < 16 ∧ yi < 256 ∧ zi < 16 then some (blocks xi yi zi) else none

/-- Unchecked indexed write of `Chunk::set_block`
(`self.blocks[[x, y + 128, z]] = block`): `none` models the `ndarray`
out-of-bounds panic. -/
def blockWrite? (blocks : Nat → Nat → Nat → Block) (p : V3) (b : Block) :
    Option (Nat → Nat → Nat → Block) :=
  let xi := usizeCast p.x
  let yi := usizeCast (i32wrap (p.y + 128))
  let zi := usizeCast p.z
  if xi < 16 ∧ yi < 256 ∧ zi < 16 then
    some (fun a c d => if a = xi ∧ c = yi ∧ d = zi then b else blocks a c d)
  else none

/-! ## The chunk.rs iteration: a `Chunk` owning its `ChunkMesh`. -/

/-- Model of `chunk.rs`: `struct Chunk { blocks, world_offset, mesh }`. -/
structure Chunk where
  blocks : Nat → Nat → Nat → Block
  world_offset : V2
  mesh : MeshBuf

/-- Model of `Chunk::get_block`. -/
def Chunk.get_block (c : Chunk) (p : V3) : Option Block := blockAt c.blocks p

/-- Model of chunk.rs `ChunkMesh::set_block`, acting on the mesh `m` of a chunk
whose grid is `blocks`.  The Air branch zeroes the whole cell, then re-adds
the opposite face of every non-Air in-chunk neighbor at the neighbor's own
position `v`; the solid branch adds faces against Air or absent neighbors and
removes both shared faces against solid ones (all writes go to this same
mesh, as in the source where `chunk.mesh` is `self`). -/
def ChunkMesh.set_block (m : MeshBuf) (blocks : Nat → Nat → Nat → Block)
    (p : V3) (b : Block) : MeshBuf :=
  if b.is_air then
    Direction.all.foldl
      (fun acc face =>
        let fv := face.to_vec3
        let v : V3 := ⟨p.x + fv.x, p.y + fv.y, p.z + fv.z⟩
        match blockAt blocks v with
        | some neighbor =>
            if neighbor.is_air then acc
            else acc.add_face v face.get_opposite neighbor
        | none => acc)
      (m.clear_cell p)
  else
    Direction.all.foldl
      (fun acc face =>
        let fv := face.to_vec3
        let v : V3 := ⟨p.x + fv.x, p.y + fv.y, p.z + fv.z⟩
        match blockAt blocks v with
        | some neighbor =>
            if neighbor.is_air then acc.add_face p face b
            else (acc.remove_face p face).remove_face v face.get_opposite
        | none => acc.add_face p face b)
      m

/-- Model of chunk.rs `Chunk::set_block`: first `self.mesh.set_block(self, ...)`,
then the unchecked grid write; `none` models the panic of the latter on an
out-of-bounds position. -/
def Chunk.set_block (c : Chunk) (p : V3) (b : Block) : Option Chunk :=
  let mesh' := ChunkMesh.set_block c.mesh c.blocks p b
  match blockWrite? c.blocks p b with
  | some blocks' => some { c with blocks := blocks', mesh := mesh' }
  | none => none

/-- A fresh chunk.rs `Chunk`: all Air, zeroed mesh. -/
def freshChunk (off : V2) (uo : Nat) : Chunk :=
  { blocks := fun _ _ _ => .Air, world_offset := off, mesh := freshMesh uo }

/-! ## The world.rs iteration: `World` with parallel chunk / mesh vectors.

The `Chunk` world.rs operates on stores only the block grid and the grid
coordinate; its mesh lives in `World.chunk_meshes`. -/

/-- The chunk record of the world.rs iteration. -/
structure WChunk where
  blocks : Nat → Nat → Nat → Block
  world_offset : V2

/-- Model of `Chunk::get_block` as used by world.rs. -/
def WChunk.get_block (c : WChunk) (p : V3) : Option Block := blockAt c.blocks p

/-- Modelled from the spec: world.rs line 70 calls `chunk.set_block(position,
block)` on a chunk without a mesh field; that revision of `Chunk::set_block`
is not under src (only its caller is).  Per spec §4.3 it is a "bounds-checked
write into the dense array" that "does not itself touch mesh data". -/
def WChunk.set_block (c : WChunk) (p : V3) (b : Block) : WChunk :=
  match blockWrite? c.blocks p b with
  | some blocks' => { c with blocks := blocks' }
  | none => c

/-- A fresh world.rs chunk (`Chunk::new(chunk_location)`): all Air. -/
def freshWChunk (loc : V2) : WChunk :=
  { blocks := fun _ _ _ => .Air, world_offset := loc }

/-- Model of `world.rs`: `struct World { chunk_map, chunks, chunk_meshes }`; the
hashbrown map is modelled as a function to `Option Nat`. -/
structure World where
  chunk_map : V2 → Option Nat
  chunks : List WChunk
  chunk_meshes : List MeshBuf

/-- Model of `World::new`. -/
def World.new : World := ⟨fun _ => none, [], []⟩

/-- Model of `World::new_chunk`: push a fresh chunk and mesh, insert
`chunk_location ↦ len - 1` (overwriting any previous entry), return the
index. -/
def World.new_chunk (w : World) (loc : V2) (uo : Nat) : World × Nat :=
  let chunks' := w.chunks ++ [freshWChunk loc]
  let meshes' := w.chunk_meshes ++ [freshMesh uo]
  let index := chunks'.length - 1
  (⟨fun l => if l = loc then some index else w.chunk_map l, chunks', meshes'⟩, index)

/-- Model of `World::get_chunk`. -/
def World.get_chunk (w : World) (i : Nat) : Option (WChunk × MeshBuf) :=
  match w.chunks[i]?, w.chunk_meshes[i]? with
  | some c, some m => some (c, m)
  | _, _ => none

/-! ### The face-visibility resolution loop of `World::set_block`.

Every mesh mutation the loop performs is either `add_face` or `remove_face`
on one mesh of `chunk_meshes`; the decisions depend only on the (already
updated) block grids and the chunk map, never on mesh contents.  The loop is
therefore embedded as: compute the list of mesh operations, then apply them
in order. -/

/-- One mesh edit of the loop: which mesh of `chunk_meshes` it targets and
what it does to it. -/
inductive MeshOp where
  | add (target : Nat) (p : V3) (d : Direction) (b : Block) : MeshOp
  | rem (target : Nat) (p : V3) (d : Direction) : MeshOp

/-- The mesh index an operation targets. -/
def MeshOp.target : MeshOp → Nat
  | .add t _ _ _ => t
  | .rem t _ _ => t

/-- Run one operation on a mesh. -/
def MeshOp.applyTo : MeshOp → MeshBuf → MeshBuf
  | .add _ p d b, m => m.add_face p d b
  | .rem _ p d, m => m.remove_face p d

/-- The vertex slots an operation writes (in mesh `t`): mirrors
`applyTo`. -/
def MeshOp.vWrite? : MeshOp → Nat → Nat → Option ChunkVertex
  | .add t p d b, tgt, j => if tgt = t then faceVertSlot? p d b j else none
  | .rem t p d, tgt, j => if tgt = t then remVertSlot? p d j else none

/-- The index slots an operation writes (in mesh `t`). -/
def MeshOp.iWrite? : MeshOp → Nat → Nat → Option Nat
  | .add t p d _, tgt, j => if tgt = t then faceIdxSlot? p d j else none
  | .rem t p d, tgt, j => if tgt = t then remIdxSlot? p d j else none

/-- Apply one operation to the mesh list; a missing target
(`chunk_meshes.get_mut` returning `None`, answered by `continue` in the
source) leaves the list unchanged. -/
def applyOp (ms : List MeshBuf) (op : MeshOp) : List MeshBuf :=
  match ms[op.target]? with
  | none => ms
  | some m => ms.set op.target (op.applyTo m)

/-- Apply a list of operations in order. -/
def applyOps (ms : List MeshBuf) (s : List MeshOp) : List MeshBuf :=
  s.foldl applyOp ms

/-- The operations `World::set_block` performs for one `face` of the loop
(world.rs lines 92-161).  `chunks` is the post-grid-write chunk vector (the
source clones it after the write), `chunk` its entry at `chunk_index`,
`mlen` the length of `chunk_meshes` (which `applyOps` never changes, so the
`get_mut` existence checks are length checks). -/
def faceOps (cmap : V2 → Option Nat) (chunks : List WChunk) (mlen : Nat)
    (chunk_index : Nat) (chunk : WChunk) (position : V3) (block : Block)
    (face : Direction) : List MeshOp :=
  let fv := face.to_vec3
  let v : V3 := ⟨position.x + fv.x, position.y + fv.y, position.z + fv.z⟩
  match chunk.get_block v with
  | some neighbor =>
      -- lines 99-102: the current chunk's own mesh must exist, else continue
      if chunk_index < mlen then
        match neighbor with
        | .Air => if block.is_air then [] else [.add chunk_index position face block]
        | _ =>
            if block.is_air then
              -- line 109: note the add is at `position`, not at `v`
              [.add chunk_index position face.get_opposite neighbor]
            else
              [.rem chunk_index position face, .rem chunk_index v face.get_opposite]
      else []
  | none =>
      match cmap ⟨fv.x + chunk.world_offset.x, fv.z + chunk.world_offset.y⟩ with
      | some nIdx =>
          match chunks[nIdx]? with
          | some nChunk =>
              if nIdx < mlen then
                let nPos : V3 := ⟨v.x % 16, v.y, v.z % 16⟩
                let nBlock :=
                  if ¬(0 ≤ v.x ∧ v.x < 16) ∨ ¬(0 ≤ v.z ∧ v.z < 16) then
                    nChunk.get_block nPos
                  else none
                if block.is_air then []
                else
                  match nBlock with
                  | some .Air =>
                      if chunk_index < mlen then [.add chunk_index position face block]
                      else []
                  | some _ => [.rem nIdx nPos face.get_opposite]
                  | none =>
                      if chunk_index < mlen then [.add chunk_index position face block]
                      else []
              else []
          | none => []
      | none =>
          -- lines 124-132: no neighboring chunk registered; note this add is
          -- not guarded by `is_air`
          if chunk_index < mlen then [.add chunk_index position face block] else []

/-- The full operation list of one `World::set_block` call. -/
def setBlockOps (cmap : V2 → Option Nat) (chunks : List WChunk) (mlen : Nat)
    (chunk_index : Nat) (chunk : WChunk) (position : V3) (block : Block) :
    List MeshOp :=
  Direction.all.flatMap (faceOps cmap chunks mlen chunk_index chunk position block)

/-- Model of `World::set_block` (world.rs lines 64-162): bail out if the chunk is
missing, write the grid, then run the face loop against the updated grids. -/
def World.set_block (w : World) (chunk_index : Nat) (position : V3) (block : Block) :
    World :=
  match w.chunks[chunk_index]? with
  | none => w
  | some c0 =>
      let chunks' := w.chunks.set chunk_index (c0.set_block position block)
      match chunks'[chunk_index]? with
      | none => { w with chunks := chunks' }
      | some chunk =>
          { w with
            chunks := chunks'
            chunk_meshes :=
              applyOps w.chunk_meshes
                (setBlockOps w.chunk_map chunks' w.chunk_meshes.length chunk_index
                  chunk position block) }

/-! ## Arithmetic facts about the addressing functions -/

theorem i32wrap_small {i : Int} (h1 : -(2 ^ 31) ≤ i) (h2 : i < 2 ^ 31) :
    i32wrap i = i := by
  unfold i32wrap; omega

theorem usizeCast_small {i : Int} (h1 : 0 ≤ i) (h2 : i < 2 ^ 64) :
    usizeCast i = i.toNat := by
  unfold usizeCast; omega

/-- On the valid domain the flatten function is plain mixed-radix arithmetic:
no `i32` wrap and no sign extension happen. -/
theorem flatten_3d_valid {p : V3} (h : validPos p) :
    (flatten_3d p : Int) = p.x + 16 * p.y + 2048 + 4096 * p.z := by
  obtain ⟨h1, h2, h3, h4, h5, h6⟩ := h
  unfold flatten_3d usizeCast i32wrap
  omega

theorem flatten_3d_lt {p : V3} (h : validPos p) : flatten_3d p < 65536 := by
  have := flatten_3d_valid h
  obtain ⟨h1, h2, h3, h4, h5, h6⟩ := h
  omega

theorem flatten_3d_inj {p p' : V3} (h : validPos p) (h' : validPos p')
    (heq : flatten_3d p = flatten_3d p') : p = p' := by
  have e1 := flatten_3d_valid h
  have e2 := flatten_3d_valid h'
  obtain ⟨a1, a2, a3, a4, a5, a6⟩ := h
  obtain ⟨b1, b2, b3, b4, b5, b6⟩ := h'
  obtain ⟨x, y, z⟩ := p
  obtain ⟨x', y', z'⟩ := p'
  simp only at *
  have : x = x' ∧ y = y' ∧ z = z' := by omega
  simp [this.1, this.2.1, this.2.2]

theorem flatten_3d_ne {p p' : V3} (h : validPos p) (h' : validPos p')
    (hne : p ≠ p') : flatten_3d p ≠ flatten_3d p' :=
  fun heq => hne (flatten_3d_inj h h' heq)

theorem Direction.index_le (d : Direction) : d.index ≤ 5 := by
  cases d <;> simp [Direction.index]

theorem Direction.index_inj {d d' : Direction} (h : d.index = d'.index) : d = d' := by
  cases d <;> cases d' <;> simp_all [Direction.index]

/-- The byte offsets of `get_buf_offset` are exactly the slot bases scaled by
the element sizes: vertex slots are 20 bytes, indices 4 bytes. -/
theorem get_buf_offset_eq (p : V3) (d : Direction) :
    get_buf_offset p d = (20 * vertSlotBase p d, 4 * idxSlotBase p d) := by
  unfold get_buf_offset vertSlotBase idxSlotBase
  rw [Prod.mk.injEq]
  constructor <;> ring

/-! ## Reading and writing the block grid -/

theorem blockAt_valid {bl : Nat → Nat → Nat → Block} {p : V3} (h : validPos p) :
    blockAt bl p = some (bl p.x.toNat (p.y + 128).toNat p.z.toNat) := by
  obtain ⟨h1, h2, h3, h4, h5, h6⟩ := h
  unfold blockAt
  rw [i32wrap_small (by omega) (by omega),
    usizeCast_small h1 (by omega),
    usizeCast_small (by omega) (by omega),
    usizeCast_small h5 (by omega)]
  rw [if_pos (by omega)]

/-- An out-of-bounds read (with `i32`-range coordinates) is `None`. -/
theorem blockAt_invalid {bl : Nat → Nat → Nat → Block} {p : V3}
    (hx : -(2 ^ 31) ≤ p.x ∧ p.x < 2 ^ 31) (hy : -(2 ^ 31) ≤ p.y ∧ p.y < 2 ^ 31)
    (hz : -(2 ^ 31) ≤ p.z ∧ p.z < 2 ^ 31) (h : ¬ validPos p) :
    blockAt bl p = none := by
  unfold validPos at h
  unfold blockAt usizeCast i32wrap
  rw [if_neg]
  omega

theorem blockWrite?_valid {bl : Nat → Nat → Nat → Block} {p : V3} {b : Block}
    (h : validPos p) :
    blockWrite? bl p b =
      some (fun a c d =>
        if a = p.x.toNat ∧ c = (p.y + 128).toNat ∧ d = p.z.toNat then b
        else bl a c d) := by
  obtain ⟨h1, h2, h3, h4, h5, h6⟩ := h
  unfold blockWrite?
  rw [i32wrap_small (by omega) (by omega),
    usizeCast_small h1 (by omega),
    usizeCast_small (by omega) (by omega),
    usizeCast_small h5 (by omega)]
  rw [if_pos (by omega)]

theorem blockWrite?_invalid {bl : Nat → Nat → Nat → Block} {p : V3} {b : Block}
    (hx : -(2 ^ 31) ≤ p.x ∧ p.x < 2 ^ 31) (hy : -(2 ^ 31) ≤ p.y ∧ p.y < 2 ^ 31)
    (hz : -(2 ^ 31) ≤ p.z ∧ p.z < 2 ^ 31) (h : ¬ validPos p) :
    blockWrite? bl p b = none := by
  unfold validPos at h
  unfold blockWrite? usizeCast i32wrap
  rw [if_neg]
  omega

/-- Writing the same block twice is the same as writing it once. -/
theorem WChunk.set_block_idem (c : WChunk) (p : V3) (b : Block) :
    (c.set_block p b).set_block p b = c.set_block p b := by
  unfold WChunk.set_block blockWrite?
  by_cases h : usizeCast p.x < 16 ∧ usizeCast (i32wrap (p.y + 128)) < 256 ∧
      usizeCast p.z < 16
  · simp only [if_pos h]
    congr 1
    funext a c' d
    by_cases hc : a = usizeCast p.x ∧ c' = usizeCast (i32wrap (p.y + 128)) ∧
        d = usizeCast p.z <;> simp [hc]
  · simp [if_neg h]

theorem WChunk.set_block_offset (c : WChunk) (p : V3) (b : Block) :
    (c.set_block p b).world_offset = c.world_offset := by
  unfold WChunk.set_block
  cases blockWrite? c.blocks p b <;> rfl

/-! ## Characterising `applyOps`: last-writer-wins semantics

Every mesh edit of the loop overwrites a fixed set of slots with values that
do not depend on the current mesh contents.  The final buffers are therefore
described slot-by-slot by the last operation writing each slot. -/

/-- The value the operation list `s` leaves in vertex slot `j` of mesh `t`,
if any operation writes it (later operations win). -/
def lastV : List MeshOp → Nat → Nat → Option ChunkVertex
  | [], _, _ => none
  | op :: s, t, j => (lastV s t j).orElse (fun _ => op.vWrite? t j)

/-- The value the operation list `s` leaves in index slot `j` of mesh `t`,
if any operation writes it. -/
def lastI : List MeshOp → Nat → Nat → Option Nat
  | [], _, _ => none
  | op :: s, t, j => (lastI s t j).orElse (fun _ => op.iWrite? t j)

theorem MeshBuf.ovr_ovr (m : MeshBuf) (fv fv' : Nat → Option ChunkVertex)
    (fi fi' : Nat → Option Nat) :
    (m.ovr fv fi).ovr fv' fi' =
      m.ovr (fun j => (fv' j).orElse (fun _ => fv j))
        (fun j => (fi' j).orElse (fun _ => fi j)) := by
  unfold MeshBuf.ovr
  simp only [MeshBuf.mk.injEq]
  refine ⟨funext fun j => ?_, funext fun j => ?_, trivial⟩
  · cases fv' j <;> simp [Option.orElse]
  · cases fi' j <;> simp [Option.orElse]

theorem MeshBuf.ovr_none (m : MeshBuf) :
    m.ovr (fun _ => none) (fun _ => none) = m := by
  unfold MeshBuf.ovr
  rfl

/-- The operation `applyTo` is the slot override described by `vWrite?`/`iWrite?` at the
operation's own target. -/
theorem MeshOp.applyTo_eq_ovr (op : MeshOp) (m : MeshBuf) :
    op.applyTo m = m.ovr (op.vWrite? op.target) (op.iWrite? op.target) := by
  cases op with
  | add t p d b =>
    have hv : (MeshOp.add t p d b).vWrite? t = faceVertSlot? p d b := by
      funext j; simp [MeshOp.vWrite?]
    have hi : (MeshOp.add t p d b).iWrite? t = faceIdxSlot? p d := by
      funext j; simp [MeshOp.iWrite?]
    show m.add_face p d b = m.ovr ((MeshOp.add t p d b).vWrite? t) ((MeshOp.add t p d b).iWrite? t)
    rw [hv, hi]; rfl
  | rem t p d =>
    have hv : (MeshOp.rem t p d).vWrite? t = remVertSlot? p d := by
      funext j; simp [MeshOp.vWrite?]
    have hi : (MeshOp.rem t p d).iWrite? t = remIdxSlot? p d := by
      funext j; simp [MeshOp.iWrite?]
    show m.remove_face p d = m.ovr ((MeshOp.rem t p d).vWrite? t) ((MeshOp.rem t p d).iWrite? t)
    rw [hv, hi]; rfl

theorem MeshOp.vWrite?_ne_target (op : MeshOp) {t : Nat} (h : t ≠ op.target) (j : Nat) :
    op.vWrite? t j = none := by
  cases op <;> simp_all [MeshOp.vWrite?, MeshOp.target]

theorem MeshOp.iWrite?_ne_target (op : MeshOp) {t : Nat} (h : t ≠ op.target) (j : Nat) :
    op.iWrite? t j = none := by
  cases op <;> simp_all [MeshOp.iWrite?, MeshOp.target]

theorem applyOp_length (ms : List MeshBuf) (op : MeshOp) :
    (applyOp ms op).length = ms.length := by
  unfold applyOp
  cases ms[op.target]? <;> simp

theorem applyOps_length (s : List MeshOp) (ms : List MeshBuf) :
    (applyOps ms s).length = ms.length := by
  induction s generalizing ms with
  | nil => rfl
  | cons op s ih => simp [applyOps, List.foldl_cons] at ih ⊢; rw [ih, applyOp_length]

/-- Slot-wise description of running an operation list: mesh `t` of the
result is mesh `t` of the input overridden by the last writes of `s`. -/
theorem applyOps_getElem? (s : List MeshOp) (ms : List MeshBuf) (t : Nat) :
    (applyOps ms s)[t]? =
      (ms[t]?).map (fun m => m.ovr (lastV s t) (lastI s t)) := by
  induction s generalizing ms with
  | nil =>
    show ms[t]? = _
    cases h : ms[t]? with
    | none => rfl
    | some m =>
      show some m = some (m.ovr (lastV [] t) (lastI [] t))
      rw [show lastV [] t = fun _ => none from rfl,
        show lastI [] t = fun _ => none from rfl, MeshBuf.ovr_none]
  | cons op s ih =>
    show (applyOps (applyOp ms op) s)[t]? = _
    rw [ih]
    by_cases ht : t = op.target
    · subst ht
      cases h : ms[op.target]? with
      | none =>
        have happ : applyOp ms op = ms := by unfold applyOp; rw [h]
        rw [happ, h]; rfl
      | some m =>
        have hlen : op.target < ms.length := by
          rcases List.getElem?_eq_some_iff.mp h with ⟨hl, _⟩; exact hl
        have happ : applyOp ms op = ms.set op.target (op.applyTo m) := by
          unfold applyOp; rw [h]
        rw [happ, List.getElem?_set_self hlen]
        show some ((op.applyTo m).ovr (lastV s op.target) (lastI s op.target)) =
          some (m.ovr (lastV (op :: s) op.target) (lastI (op :: s) op.target))
        rw [MeshOp.applyTo_eq_ovr, MeshBuf.ovr_ovr]
        rfl
    · have hget : (applyOp ms op)[t]? = ms[t]? := by
        unfold applyOp
        cases ms[op.target]? with
        | none => rfl
        | some m => rw [List.getElem?_set_ne (fun hh => ht hh.symm)]
      have hv : lastV (op :: s) t = lastV s t := by
        funext j
        show (lastV s t j).orElse (fun _ => op.vWrite? t j) = lastV s t j
        rw [MeshOp.vWrite?_ne_target op ht]
        cases lastV s t j <;> rfl
      have hi : lastI (op :: s) t = lastI s t := by
        funext j
        show (lastI s t j).orElse (fun _ => op.iWrite? t j) = lastI s t j
        rw [MeshOp.iWrite?_ne_target op ht]
        cases lastI s t j <;> rfl
      rw [hget, hv, hi]

/-- Absolute stores make an operation list idempotent: running it a second
time changes nothing. -/
theorem applyOps_idem (s : List MeshOp) (ms : List MeshBuf) :
    applyOps (applyOps ms s) s = applyOps ms s := by
  apply List.ext_getElem?
  intro t
  rw [applyOps_getElem?, applyOps_getElem?]
  cases h : ms[t]? with
  | none => rfl
  | some m =>
    show some ((m.ovr (lastV s t) (lastI s t)).ovr (lastV s t) (lastI s t)) =
      some (m.ovr (lastV s t) (lastI s t))
    have h2 : (m.ovr (lastV s t) (lastI s t)).ovr (lastV s t) (lastI s t) =
        m.ovr (lastV s t) (lastI s t) := by
      rw [MeshBuf.ovr_ovr]
      unfold MeshBuf.ovr
      simp only [MeshBuf.mk.injEq]
      refine ⟨funext fun j => ?_, funext fun j => ?_, trivial⟩
      · cases lastV s t j <;> rfl
      · cases lastI s t j <;> rfl
    rw [h2]

/-! ## Concrete worlds used by the claim evaluations -/

/-- A world holding one fresh chunk at grid coordinate (0,0). -/
def oneChunkWorld : World := (World.new.new_chunk ⟨0, 0⟩ 0).1

/-- The world `oneChunkWorld` after `set_block(0, (5,0,5), Stone)`: every neighbor is
Air, so all 6 faces of cell (5,0,5) are added. -/
def wStone55 : World := oneChunkWorld.set_block 0 ⟨5, 0, 5⟩ .Stone

/-- The world `wStone55` after `set_block(0, (5,0,5), Air)`. -/
def wStone55Air : World := wStone55.set_block 0 ⟨5, 0, 5⟩ .Air

/-- The world `oneChunkWorld` after `set_block(0, (5,0,6), Stone)`. -/
def wStone56 : World := oneChunkWorld.set_block 0 ⟨5, 0, 6⟩ .Stone

/-- The world `wStone56` after `set_block(0, (5,0,5), Air)`: the cell at (5,0,6) is a
solid same-chunk neighbor of the newly emptied cell. -/
def wStone56Air55 : World := wStone56.set_block 0 ⟨5, 0, 5⟩ .Air

/-- The world `oneChunkWorld` after `set_block(0, (0,0,0), Air)` — an Air write whose
LEFT neighbor position lies outside every registered chunk. -/
def wAirEdge : World := oneChunkWorld.set_block 0 ⟨0, 0, 0⟩ .Air

/-! ## Claims -/

/-- C1: refuted on `World::set_block` (world.rs).  Failing input: a single
fresh chunk, `set_block(0,(5,0,5),Stone)` (which adds all 6 faces of the
cell), then `set_block(0,(5,0,5),Air)`.  The claim demands that after the
Air write all 24 vertex and 36 index slots of cell (5,0,5) are zero; instead
the Air branch of world.rs never clears the cell, so every one of those
slots still holds the face data of the previous Stone block. -/
theorem C1_air_write_leaves_cell_geometry :
    ∀ k ∈ List.range 36,
      (wStone55Air.chunk_meshes.getD 0 (freshMesh 0)).inds
        (36 * flatten_3d ⟨5, 0, 5⟩ + k) ≠ 0 := by
  decide

/-- Witness for C1 at slot 2 of the cell's index range: the slot still holds
`24·flatten((5,0,5)) + 2` after the Air write. -/
theorem C1_air_write_leaves_cell_geometry_witness :
    2 ∈ List.range 36 ∧
    (wStone55Air.chunk_meshes.getD 0 (freshMesh 0)).inds
      (36 * flatten_3d ⟨5, 0, 5⟩ + 2) ≠ 0 :=
  ⟨by decide, C1_air_write_leaves_cell_geometry 2 (by decide)⟩

/-- C2: refuted on `World::set_block` (world.rs).  Failing input: a single
fresh chunk with Stone at (5,0,6), then `set_block(0,(5,0,5),Air)`.  The
claim says the re-exposed BACK face of the solid neighbor is written into
the slots of cell `(5,0,6) = P + d`, "not into cell P's own slots"; but
world.rs line 109 calls `mesh.add_face(position, ...)`, so cell (5,0,5)'s
own BACK slot goes from 0 to the face data `24·flatten((5,0,5)) + 4`. -/
theorem C2_neighbor_face_written_at_own_cell :
    (wStone56.chunk_meshes.getD 0 (freshMesh 0)).inds (idxSlotBase ⟨5, 0, 5⟩ .BACK) = 0 ∧
    (wStone56Air55.chunk_meshes.getD 0 (freshMesh 0)).inds (idxSlotBase ⟨5, 0, 5⟩ .BACK) =
      24 * flatten_3d ⟨5, 0, 5⟩ + 4 ∧
    24 * flatten_3d ⟨5, 0, 5⟩ + 4 ≠ 0 :=
  ⟨rfl, rfl, by decide⟩

/-- C5: refuted on `World::set_block` (world.rs).  Failing input: a single
fresh chunk at (0,0), `set_block(0,(0,0,0),Air)`.  The LEFT neighbor
position (-1,0,0) lies outside the chunk and no chunk is registered at grid
(-1,0), and world.rs lines 124-131 then call `mesh.add_face(position, face,
&block)` without checking `is_air`: the Air cell's LEFT face slots receive
face data generated from the Air block (nonzero indices and vertex
positions), violating the invariant. -/
theorem C5_air_face_added_at_world_edge :
    (∀ k ∈ List.range 6,
      (wAirEdge.chunk_meshes.getD 0 (freshMesh 0)).inds (idxSlotBase ⟨0, 0, 0⟩ .LEFT + k) =
        (Direction.LEFT.cube_indices.getD k 0) + 24 * flatten_3d ⟨0, 0, 0⟩) ∧
    (wAirEdge.chunk_meshes.getD 0 (freshMesh 0)).inds (idxSlotBase ⟨0, 0, 0⟩ .LEFT) ≠ 0 :=
  ⟨by decide, by decide⟩

/-- C6: for every pair of distinct (valid position, direction) pairs, the
4-slot vertex range and 6-slot index range lie inside `[0, 24·65536)` and
`[0, 36·65536)` respectively and are disjoint; `flatten_3d` is injective on
the valid domain. -/
theorem C6_slot_ranges_in_bounds_and_disjoint (p p' : V3) (d d' : Direction)
    (hp : validPos p) (hp' : validPos p') (hne : (p, d) ≠ (p', d')) :
    vertSlotBase p d + 4 ≤ 24 * 65536 ∧
    idxSlotBase p d + 6 ≤ 36 * 65536 ∧
    (p ≠ p' → flatten_3d p ≠ flatten_3d p') ∧
    (vertSlotBase p d + 4 ≤ vertSlotBase p' d' ∨
      vertSlotBase p' d' + 4 ≤ vertSlotBase p d) ∧
    (idxSlotBase p d + 6 ≤ idxSlotBase p' d' ∨
      idxSlotBase p' d' + 6 ≤ idxSlotBase p d) := by
  have hf := flatten_3d_lt hp
  have hf' := flatten_3d_lt hp'
  have hdi := Direction.index_le d
  have hdi' := Direction.index_le d'
  have hne6 : 6 * flatten_3d p + d.index ≠ 6 * flatten_3d p' + d'.index := by
    intro he
    have hff : flatten_3d p = flatten_3d p' := by omega
    have hdd : d.index = d'.index := by omega
    exact hne (by rw [flatten_3d_inj hp hp' hff, Direction.index_inj hdd])
  unfold vertSlotBase idxSlotBase
  refine ⟨?_, ?_, fun hpp => flatten_3d_ne hp hp' hpp, ?_, ?_⟩ <;> omega

/-- Witness for C6 at the concrete pair ((0,0,0), FRONT) vs ((1,0,0), FRONT). -/
theorem C6_slot_ranges_in_bounds_and_disjoint_witness :
    validPos ⟨0, 0, 0⟩ ∧ validPos ⟨1, 0, 0⟩ ∧
    (((⟨0, 0, 0⟩ : V3), Direction.FRONT) ≠ ((⟨1, 0, 0⟩ : V3), Direction.FRONT)) ∧
    (vertSlotBase ⟨0, 0, 0⟩ .FRONT + 4 ≤ 24 * 65536 ∧
      idxSlotBase ⟨0, 0, 0⟩ .FRONT + 6 ≤ 36 * 65536 ∧
      ((⟨0, 0, 0⟩ : V3) ≠ ⟨1, 0, 0⟩ → flatten_3d ⟨0, 0, 0⟩ ≠ flatten_3d ⟨1, 0, 0⟩) ∧
      (vertSlotBase ⟨0, 0, 0⟩ .FRONT + 4 ≤ vertSlotBase ⟨1, 0, 0⟩ .FRONT ∨
        vertSlotBase ⟨1, 0, 0⟩ .FRONT + 4 ≤ vertSlotBase ⟨0, 0, 0⟩ .FRONT) ∧
      (idxSlotBase ⟨0, 0, 0⟩ .FRONT + 6 ≤ idxSlotBase ⟨1, 0, 0⟩ .FRONT ∨
        idxSlotBase ⟨1, 0, 0⟩ .FRONT + 6 ≤ idxSlotBase ⟨0, 0, 0⟩ .FRONT)) :=
  ⟨by decide, by decide, by decide,
    C6_slot_ranges_in_bounds_and_disjoint ⟨0, 0, 0⟩ ⟨1, 0, 0⟩ .FRONT .FRONT
      (by decide) (by decide) (by decide)⟩

/-- C7: every one of the 6 triangle-index values written by `add_face(P, d,
b)` lies in the 4-vertex slot range `[flatten(P)·24 + index(d)·4, +4)` of
that same call. -/
theorem C7_written_indices_in_own_vertex_range (m : MeshBuf) (p : V3)
    (d : Direction) (b : Block) (k : Nat) (hp : validPos p) (hk : k < 6) :
    vertSlotBase p d ≤ (m.add_face p d b).inds (idxSlotBase p d + k) ∧
    (m.add_face p d b).inds (idxSlotBase p d + k) < vertSlotBase p d + 4 := by
  have hval : (m.add_face p d b).inds (idxSlotBase p d + k) =
      d.cube_indices.getD k 0 + 24 * flatten_3d p := by
    show (faceIdxSlot? p d (idxSlotBase p d + k)).getD (m.inds (idxSlotBase p d + k)) = _
    unfold faceIdxSlot?
    rw [if_pos (by omega)]
    rw [Nat.add_sub_cancel_left]
    rfl
  have hrange : 4 * d.index ≤ d.cube_indices.getD k 0 ∧
      d.cube_indices.getD k 0 < 4 * d.index + 4 := by
    cases d <;> interval_cases k <;> simp [Direction.cube_indices, Direction.index]
  rw [hval]
  unfold vertSlotBase
  omega

/-- Witness for C7 at mesh `freshMesh 0`, cell (0,0,0), FRONT, Stone, k = 1. -/
theorem C7_written_indices_in_own_vertex_range_witness :
    validPos ⟨0, 0, 0⟩ ∧ (1 : Nat) < 6 ∧
    (vertSlotBase ⟨0, 0, 0⟩ .FRONT ≤
        ((freshMesh 0).add_face ⟨0, 0, 0⟩ .FRONT .Stone).inds (idxSlotBase ⟨0, 0, 0⟩ .FRONT + 1) ∧
      ((freshMesh 0).add_face ⟨0, 0, 0⟩ .FRONT .Stone).inds (idxSlotBase ⟨0, 0, 0⟩ .FRONT + 1) <
        vertSlotBase ⟨0, 0, 0⟩ .FRONT + 4) :=
  ⟨by decide, by decide,
    C7_written_indices_in_own_vertex_range (freshMesh 0) ⟨0, 0, 0⟩ .FRONT .Stone 1
      (by decide) (by decide)⟩

/-- C8, counterexample: the claim says `Chunk::set_block` performs a
bounds-checked write and does not panic out of bounds; but the source writes
`self.blocks[[x, y+128, z]] = block` with panicking `ndarray` indexing.  At
position (0,200,0), whose biased y index is 328 ≥ 256, the write panics
(modelled as `none`). -/
theorem C8_counterexample_set_block_panics :
    Chunk.set_block (freshChunk ⟨0, 0⟩ 0) ⟨0, 200, 0⟩ .Stone = none := by
  rfl

/-- C8, amended: `Chunk::get_block` is bounds-checked and non-panicking —
it returns `None` exactly when the Y-biased position lies outside the fixed
16×256×16 dimensions — while `Chunk::set_block`'s grid write is *not*
bounds-checked: it panics (modelled as `none`) exactly on those same
out-of-bounds positions.  The hypotheses restrict the coordinates to the
`i32` range of the source. -/
theorem C8_get_block_checked_set_block_panics (c : Chunk) (b : Block) (p : V3)
    (hx : -(2 ^ 31) ≤ p.x ∧ p.x < 2 ^ 31) (hy : -(2 ^ 31) ≤ p.y ∧ p.y < 2 ^ 31)
    (hz : -(2 ^ 31) ≤ p.z ∧ p.z < 2 ^ 31) :
    (c.get_block p = none ↔ ¬ validPos p) ∧
    (c.set_block p b = none ↔ ¬ validPos p) := by
  constructor
  · constructor
    · intro h hv
      rw [Chunk.get_block, blockAt_valid hv] at h
      cases h
    · intro hv
      exact blockAt_invalid hx hy hz hv
  · constructor
    · intro h hv
      unfold Chunk.set_block at h
      rw [blockWrite?_valid hv] at h
      cases h
    · intro hv
      unfold Chunk.set_block
      rw [blockWrite?_invalid hx hy hz hv]

/-- Witness for C8's amended theorem at the fresh chunk and position
(0,200,0): both accessors report the out-of-bounds position. -/
theorem C8_get_block_checked_set_block_panics_witness :
    (freshChunk ⟨0, 0⟩ 0).get_block ⟨0, 200, 0⟩ = none ∧
    Chunk.set_block (freshChunk ⟨0, 0⟩ 0) ⟨0, 200, 0⟩ .Dirt = none :=
  ⟨(C8_get_block_checked_set_block_panics (freshChunk ⟨0, 0⟩ 0) .Dirt ⟨0, 200, 0⟩
      (by decide) (by decide) (by decide)).1.mpr (by decide),
    (C8_get_block_checked_set_block_panics (freshChunk ⟨0, 0⟩ 0) .Dirt ⟨0, 200, 0⟩
      (by decide) (by decide) (by decide)).2.mpr (by decide)⟩

/-- C9: `World::set_block` against a chunk index with no chunk is a silent
no-op — the world (every chunk's grid, every mesh, the chunk map) is
returned unchanged, and the total function never panics. -/
theorem C9_missing_chunk_is_noop (w : World) (chunk_index : Nat) (p : V3)
    (b : Block) (h : w.chunks[chunk_index]? = none) :
    w.set_block chunk_index p b = w := by
  unfold World.set_block
  rw [h]

/-- Witness for C9 on the empty world at chunk index 0. -/
theorem C9_missing_chunk_is_noop_witness :
    World.new.set_block 0 ⟨0, 0, 0⟩ .Stone = World.new :=
  C9_missing_chunk_is_noop World.new 0 ⟨0, 0, 0⟩ .Stone rfl

/-- C10: calling `World::new_chunk` with a location already mapped to index
`j` overwrites the map entry with the index of the newly pushed pair, while
the old chunk and mesh stay at index `j` (`get_chunk j` is unchanged), the
new index holds the fresh pair, and the two parallel vectors stay equal in
length. -/
theorem C10_new_chunk_overwrites_map_entry (w : World) (loc : V2) (uo : Nat)
    (j : Nat) (pr : WChunk × MeshBuf) (hmap : w.chunk_map loc = some j)
    (hold : w.get_chunk j = some pr)
    (hlen : w.chunks.length = w.chunk_meshes.length) :
    (w.new_chunk loc uo).1.chunk_map loc = some w.chunks.length ∧
    (w.new_chunk loc uo).1.get_chunk j = some pr ∧
    (w.new_chunk loc uo).1.chunks.length = (w.new_chunk loc uo).1.chunk_meshes.length ∧
    (w.new_chunk loc uo).1.get_chunk w.chunks.length =
      some (freshWChunk loc, freshMesh uo) := by
  have hc : ∃ hj : j < w.chunks.length, w.chunks[j] = pr.1 := by
    unfold World.get_chunk at hold
    cases h1 : w.chunks[j]? with
    | none => rw [h1] at hold; cases hold
    | some c =>
      cases h2 : w.chunk_meshes[j]? with
      | none => rw [h1, h2] at hold; cases hold
      | some m =>
        rw [h1, h2] at hold
        cases hold
        rcases List.getElem?_eq_some_iff.mp h1 with ⟨hj, he⟩
        exact ⟨hj, he⟩
  have hm : ∃ hj : j < w.chunk_meshes.length, w.chunk_meshes[j] = pr.2 := by
    unfold World.get_chunk at hold
    cases h1 : w.chunks[j]? with
    | none => rw [h1] at hold; cases hold
    | some c =>
      cases h2 : w.chunk_meshes[j]? with
      | none => rw [h1, h2] at hold; cases hold
      | some m =>
        rw [h1, h2] at hold
        cases hold
        rcases List.getElem?_eq_some_iff.mp h2 with ⟨hj, he⟩
        exact ⟨hj, he⟩
  obtain ⟨hjc, hec⟩ := hc
  obtain ⟨hjm, hem⟩ := hm
  refine ⟨?_, ?_, ?_, ?_⟩
  · show (if loc = loc then some ((w.chunks ++ [freshWChunk loc]).length - 1)
      else w.chunk_map loc) = some w.chunks.length
    rw [if_pos rfl, List.length_append]
    simp
  · show World.get_chunk ⟨_, w.chunks ++ [freshWChunk loc],
      w.chunk_meshes ++ [freshMesh uo]⟩ j = some pr
    unfold World.get_chunk
    rw [List.getElem?_append_left hjc, List.getElem?_append_left hjm]
    rw [List.getElem?_eq_getElem hjc, List.getElem?_eq_getElem hjm, hec, hem]
  · show (w.chunks ++ [freshWChunk loc]).length = (w.chunk_meshes ++ [freshMesh uo]).length
    simp [hlen]
  · show World.get_chunk ⟨_, w.chunks ++ [freshWChunk loc],
      w.chunk_meshes ++ [freshMesh uo]⟩ w.chunks.length = _
    unfold World.get_chunk
    rw [List.getElem?_concat_length, hlen, List.getElem?_concat_length]

/-- Witness for C10: a world already holding a chunk at (0,0), then
`new_chunk` at (0,0) again. -/
theorem C10_new_chunk_overwrites_map_entry_witness :
    (oneChunkWorld.new_chunk ⟨0, 0⟩ 7).1.chunk_map ⟨0, 0⟩ = some oneChunkWorld.chunks.length ∧
    (oneChunkWorld.new_chunk ⟨0, 0⟩ 7).1.get_chunk 0 = some (freshWChunk ⟨0, 0⟩, freshMesh 0) ∧
    (oneChunkWorld.new_chunk ⟨0, 0⟩ 7).1.chunks.length =
      (oneChunkWorld.new_chunk ⟨0, 0⟩ 7).1.chunk_meshes.length ∧
    (oneChunkWorld.new_chunk ⟨0, 0⟩ 7).1.get_chunk oneChunkWorld.chunks.length =
      some (freshWChunk ⟨0, 0⟩, freshMesh 7) :=
  C10_new_chunk_overwrites_map_entry oneChunkWorld ⟨0, 0⟩ 7 0
    (freshWChunk ⟨0, 0⟩, freshMesh 0) rfl rfl rfl

/-- Unfolding lemma for `World::set_block` when the chunk exists. -/
theorem World.set_block_of_found {w : World} {i : Nat} {c0 : WChunk}
    (h : w.chunks[i]? = some c0) (P : V3) (B : Block) :
    w.set_block i P B =
      { w with
        chunks := w.chunks.set i (c0.set_block P B)
        chunk_meshes :=
          applyOps w.chunk_meshes
            (setBlockOps w.chunk_map (w.chunks.set i (c0.set_block P B))
              w.chunk_meshes.length i (c0.set_block P B) P B) } := by
  have hi : i < w.chunks.length := (List.getElem?_eq_some_iff.mp h).1
  simp only [World.set_block, h, List.getElem?_set_self hi]

/-- C3: applying the same `World::set_block` call twice leaves exactly the
mesh state (and world state) of applying it once: all face decisions are
functions of the current block grids, grid writes are idempotent, and every
mesh edit is an absolute store. -/
theorem C3_set_block_idempotent (w : World) (chunk_index : Nat) (P : V3)
    (B : Block) (hidx : chunk_index < w.chunks.length) (hP : validPos P) :
    (w.set_block chunk_index P B).set_block chunk_index P B =
      w.set_block chunk_index P B := by
  have h0 : w.chunks[chunk_index]? = some w.chunks[chunk_index] :=
    List.getElem?_eq_getElem hidx
  rw [World.set_block_of_found h0 P B]
  have h1 : (w.chunks.set chunk_index
      (w.chunks[chunk_index].set_block P B))[chunk_index]? =
      some (w.chunks[chunk_index].set_block P B) :=
    List.getElem?_set_self hidx
  rw [World.set_block_of_found h1 P B]
  rw [WChunk.set_block_idem, List.set_set, applyOps_length, applyOps_idem]

/-- Witness for C3 on the one-chunk world at (5,0,5) with Stone. -/
theorem C3_set_block_idempotent_witness :
    (oneChunkWorld.set_block 0 ⟨5, 0, 5⟩ .Stone).set_block 0 ⟨5, 0, 5⟩ .Stone =
      oneChunkWorld.set_block 0 ⟨5, 0, 5⟩ .Stone :=
  C3_set_block_idempotent oneChunkWorld 0 ⟨5, 0, 5⟩ .Stone (by decide) (by decide)

/-! ## Last-writer reasoning for the cross-chunk scenario -/

theorem lastV_append (s s₂ : List MeshOp) (t j : Nat) :
    lastV (s ++ s₂) t j = (lastV s₂ t j).orElse (fun _ => lastV s t j) := by
  induction s with
  | nil =>
    show lastV s₂ t j = (lastV s₂ t j).orElse (fun _ => none)
    cases lastV s₂ t j <;> rfl
  | cons op s ih =>
    show (lastV (s ++ s₂) t j).orElse (fun _ => op.vWrite? t j) = _
    rw [ih]
    show ((lastV s₂ t j).orElse (fun _ => lastV s t j)).orElse (fun _ => op.vWrite? t j) =
      (lastV s₂ t j).orElse (fun _ => (lastV s t j).orElse (fun _ => op.vWrite? t j))
    cases lastV s₂ t j <;> rfl

theorem lastI_append (s s₂ : List MeshOp) (t j : Nat) :
    lastI (s ++ s₂) t j = (lastI s₂ t j).orElse (fun _ => lastI s t j) := by
  induction s with
  | nil =>
    show lastI s₂ t j = (lastI s₂ t j).orElse (fun _ => none)
    cases lastI s₂ t j <;> rfl
  | cons op s ih =>
    show (lastI (s ++ s₂) t j).orElse (fun _ => op.iWrite? t j) = _
    rw [ih]
    show ((lastI s₂ t j).orElse (fun _ => lastI s t j)).orElse (fun _ => op.iWrite? t j) =
      (lastI s₂ t j).orElse (fun _ => (lastI s t j).orElse (fun _ => op.iWrite? t j))
    cases lastI s₂ t j <;> rfl

theorem lastV_eq_none (s : List MeshOp) (t j : Nat)
    (h : ∀ op ∈ s, op.vWrite? t j = none) : lastV s t j = none := by
  induction s with
  | nil => rfl
  | cons op s ih =>
    show (lastV s t j).orElse (fun _ => op.vWrite? t j) = none
    rw [ih (fun o ho => h o (List.mem_cons_of_mem op ho)), h op (List.mem_cons_self op s)]
    rfl

theorem lastI_eq_none (s : List MeshOp) (t j : Nat)
    (h : ∀ op ∈ s, op.iWrite? t j = none) : lastI s t j = none := by
  induction s with
  | nil => rfl
  | cons op s ih =>
    show (lastI s t j).orElse (fun _ => op.iWrite? t j) = none
    rw [ih (fun o ho => h o (List.mem_cons_of_mem op ho)), h op (List.mem_cons_self op s)]
    rfl

theorem vWrite?_add_eq_none {t p d b} {tgt j : Nat}
    (h : tgt ≠ t ∨ j < vertSlotBase p d ∨ vertSlotBase p d + 4 ≤ j) :
    (MeshOp.add t p d b).vWrite? tgt j = none := by
  show (if tgt = t then faceVertSlot? p d b j else none) = none
  by_cases ht : tgt = t
  · rw [if_pos ht]
    show (if vertSlotBase p d ≤ j ∧ j < vertSlotBase p d + 4 then _ else none) = none
    rw [if_neg (by omega)]
  · rw [if_neg ht]

theorem iWrite?_add_eq_none {t p d b} {tgt j : Nat}
    (h : tgt ≠ t ∨ j < idxSlotBase p d ∨ idxSlotBase p d + 6 ≤ j) :
    (MeshOp.add t p d b).iWrite? tgt j = none := by
  show (if tgt = t then faceIdxSlot? p d j else none) = none
  by_cases ht : tgt = t
  · rw [if_pos ht]
    show (if idxSlotBase p d ≤ j ∧ j < idxSlotBase p d + 6 then _ else none) = none
    rw [if_neg (by omega)]
  · rw [if_neg ht]

theorem vWrite?_rem_eq_none {t p d} {tgt j : Nat}
    (h : tgt ≠ t ∨ j < vertSlotBase p d ∨ vertSlotBase p d + 4 ≤ j) :
    (MeshOp.rem t p d).vWrite? tgt j = none := by
  show (if tgt = t then remVertSlot? p d j else none) = none
  by_cases ht : tgt = t
  · rw [if_pos ht]
    show (if vertSlotBase p d ≤ j ∧ j < vertSlotBase p d + 4 then _ else none) = none
    rw [if_neg (by omega)]
  · rw [if_neg ht]

theorem iWrite?_rem_eq_none {t p d} {tgt j : Nat}
    (h : tgt ≠ t ∨ j < idxSlotBase p d ∨ idxSlotBase p d + 6 ≤ j) :
    (MeshOp.rem t p d).iWrite? tgt j = none := by
  show (if tgt = t then remIdxSlot? p d j else none) = none
  by_cases ht : tgt = t
  · rw [if_pos ht]
    show (if idxSlotBase p d ≤ j ∧ j < idxSlotBase p d + 6 then _ else none) = none
    rw [if_neg (by omega)]
  · rw [if_neg ht]

theorem vWrite?_rem_eq_zero {t p d} {j : Nat}
    (h : vertSlotBase p d ≤ j ∧ j < vertSlotBase p d + 4) :
    (MeshOp.rem t p d).vWrite? t j = some ChunkVertex.zero := by
  show (if t = t then remVertSlot? p d j else none) = some ChunkVertex.zero
  rw [if_pos rfl]
  show (if vertSlotBase p d ≤ j ∧ j < vertSlotBase p d + 4 then _ else none) = _
  rw [if_pos h]

theorem iWrite?_rem_eq_zero {t p d} {j : Nat}
    (h : idxSlotBase p d ≤ j ∧ j < idxSlotBase p d + 6) :
    (MeshOp.rem t p d).iWrite? t j = some 0 := by
  show (if t = t then remIdxSlot? p d j else none) = some 0
  rw [if_pos rfl]
  show (if idxSlotBase p d ≤ j ∧ j < idxSlotBase p d + 6 then _ else none) = _
  rw [if_pos h]

theorem Direction.index_lt_five_of_ne_right {d : Direction} (h : d ≠ .RIGHT) :
    d.index < 5 := by
  cases d <;> simp_all [Direction.index]

section CrossChunk

variable {y z : Int} {A B : WChunk} {sb : Block} {cmap : V2 → Option Nat}

/-- The shape every face of the loop other than RIGHT produces in the
cross-chunk scenario: either the face is added at the edited cell itself, or
the shared faces with a valid same-chunk neighbor `v ≠ P` are removed. -/
def nonRightShape (ops : List MeshOp) (P : V3) (sb : Block) (d : Direction) : Prop :=
  ops = [.add 0 P d sb] ∨
    ∃ v : V3, validPos v ∧ v ≠ P ∧ ops = [.rem 0 P d, .rem 0 v d.get_opposite]

theorem front_ops_shape (hy : -128 ≤ y ∧ y < 128) (hz : 0 ≤ z ∧ z < 16)
    (hoff : A.world_offset = ⟨0, 0⟩) (hsb : sb.is_air = false)
    (hmapelse : ∀ l, l ≠ ⟨0, 0⟩ → l ≠ ⟨1, 0⟩ → cmap l = none) :
    nonRightShape (faceOps cmap [A, B] 2 0 A ⟨15, y, z⟩ sb .FRONT) ⟨15, y, z⟩ sb .FRONT := by
  simp only [faceOps, Direction.to_vec3, WChunk.get_block, hoff, add_zero]
  by_cases hzlt : z < 15
  · have hv : validPos ⟨15, y, z + 1⟩ := by
      simp only [validPos]; omega
    rw [blockAt_valid hv]
    cases hnb : A.blocks (15 : Int).toNat (y + 128).toNat (z + 1).toNat with
    | Air =>
      left
      simp [hsb]
    | Grass =>
      right
      exact ⟨⟨15, y, z + 1⟩, hv, by simp [V3.mk.injEq], by simp [hsb]⟩
    | Dirt =>
      right
      exact ⟨⟨15, y, z + 1⟩, hv, by simp [V3.mk.injEq], by simp [hsb]⟩
    | Stone =>
      right
      exact ⟨⟨15, y, z + 1⟩, hv, by simp [V3.mk.injEq], by simp [hsb]⟩
  · have h1 : (-(2 ^ 31) : Int) ≤ 15 ∧ (15 : Int) < 2 ^ 31 := by omega
    have h2 : (-(2 ^ 31) : Int) ≤ y ∧ y < 2 ^ 31 := by omega
    have h3 : (-(2 ^ 31) : Int) ≤ z + 1 ∧ z + 1 < 2 ^ 31 := by omega
    have hinv : blockAt A.blocks ⟨15, y, z + 1⟩ = none :=
      blockAt_invalid h1 h2 h3 (by simp only [validPos]; omega)
    rw [hinv, hmapelse ⟨0, 1⟩ (by decide) (by decide)]
    left
    rfl

theorem back_ops_shape (hy : -128 ≤ y ∧ y < 128) (hz : 0 ≤ z ∧ z < 16)
    (hoff : A.world_offset = ⟨0, 0⟩) (hsb : sb.is_air = false)
    (hmapelse : ∀ l, l ≠ ⟨0, 0⟩ → l ≠ ⟨1, 0⟩ → cmap l = none) :
    nonRightShape (faceOps cmap [A, B] 2 0 A ⟨15, y, z⟩ sb .BACK) ⟨15, y, z⟩ sb .BACK := by
  simp only [faceOps, Direction.to_vec3, WChunk.get_block, hoff, add_zero]
  by_cases hzgt : 0 < z
  · have hv : validPos ⟨15, y, z + -1⟩ := by
      simp only [validPos]; omega
    rw [blockAt_valid hv]
    cases hnb : A.blocks (15 : Int).toNat (y + 128).toNat (z + -1).toNat with
    | Air =>
      left
      simp [hsb]
    | Grass =>
      right
      exact ⟨⟨15, y, z + -1⟩, hv, by simp [V3.mk.injEq], by simp [hsb]⟩
    | Dirt =>
      right
      exact ⟨⟨15, y, z + -1⟩, hv, by simp [V3.mk.injEq], by simp [hsb]⟩
    | Stone =>
      right
      exact ⟨⟨15, y, z + -1⟩, hv, by simp [V3.mk.injEq], by simp [hsb]⟩
  · have h1 : (-(2 ^ 31) : Int) ≤ 15 ∧ (15 : Int) < 2 ^ 31 := by omega
    have h2 : (-(2 ^ 31) : Int) ≤ y ∧ y < 2 ^ 31 := by omega
    have h3 : (-(2 ^ 31) : Int) ≤ z + -1 ∧ z + -1 < 2 ^ 31 := by omega
    have hinv : blockAt A.blocks ⟨15, y, z + -1⟩ = none :=
      blockAt_invalid h1 h2 h3 (by simp only [validPos]; omega)
    rw [hinv, hmapelse ⟨0, -1⟩ (by decide) (by decide)]
    left
    rfl

theorem top_ops_shape (hy : -128 ≤ y ∧ y < 128) (hz : 0 ≤ z ∧ z < 16)
    (hoff : A.world_offset = ⟨0, 0⟩) (hsb : sb.is_air = false)
    (hmap0 : cmap ⟨0, 0⟩ = some 0) :
    nonRightShape (faceOps cmap [A, B] 2 0 A ⟨15, y, z⟩ sb .TOP) ⟨15, y, z⟩ sb .TOP := by
  simp only [faceOps, Direction.to_vec3, WChunk.get_block, hoff, add_zero]
  by_cases hylt : y < 127
  · have hv : validPos ⟨15, y + 1, z⟩ := by
      simp only [validPos]; omega
    rw [blockAt_valid hv]
    cases hnb : A.blocks (15 : Int).toNat (y + 1 + 128).toNat z.toNat with
    | Air =>
      left
      simp [hsb]
    | Grass =>
      right
      exact ⟨⟨15, y + 1, z⟩, hv, by simp [V3.mk.injEq], by simp [hsb]⟩
    | Dirt =>
      right
      exact ⟨⟨15, y + 1, z⟩, hv, by simp [V3.mk.injEq], by simp [hsb]⟩
    | Stone =>
      right
      exact ⟨⟨15, y + 1, z⟩, hv, by simp [V3.mk.injEq], by simp [hsb]⟩
  · have h1 : (-(2 ^ 31) : Int) ≤ 15 ∧ (15 : Int) < 2 ^ 31 := by omega
    have h2 : (-(2 ^ 31) : Int) ≤ y + 1 ∧ y + 1 < 2 ^ 31 := by omega
    have h3 : (-(2 ^ 31) : Int) ≤ z ∧ z < 2 ^ 31 := by omega
    have hinv : blockAt A.blocks ⟨15, y + 1, z⟩ = none :=
      blockAt_invalid h1 h2 h3 (by simp only [validPos]; omega)
    rw [hinv, hmap0]
    left
    simp [hsb, hz.1, hz.2]

theorem bottom_ops_shape (hy : -128 ≤ y ∧ y < 128) (hz : 0 ≤ z ∧ z < 16)
    (hoff : A.world_offset = ⟨0, 0⟩) (hsb : sb.is_air = false)
    (hmap0 : cmap ⟨0, 0⟩ = some 0) :
    nonRightShape (faceOps cmap [A, B] 2 0 A ⟨15, y, z⟩ sb .BOTTOM) ⟨15, y, z⟩ sb .BOTTOM := by
  simp only [faceOps, Direction.to_vec3, WChunk.get_block, hoff, add_zero]
  by_cases hygt : -128 < y
  · have hv : validPos ⟨15, y + -1, z⟩ := by
      simp only [validPos]; omega
    rw [blockAt_valid hv]
    cases hnb : A.blocks (15 : Int).toNat (y + -1 + 128).toNat z.toNat with
    | Air =>
      left
      simp [hsb]
    | Grass =>
      right
      exact ⟨⟨15, y + -1, z⟩, hv, by simp [V3.mk.injEq], by simp [hsb]⟩
    | Dirt =>
      right
      exact ⟨⟨15, y + -1, z⟩, hv, by simp [V3.mk.injEq], by simp [hsb]⟩
    | Stone =>
      right
      exact ⟨⟨15, y + -1, z⟩, hv, by simp [V3.mk.injEq], by simp [hsb]⟩
  · have h1 : (-(2 ^ 31) : Int) ≤ 15 ∧ (15 : Int) < 2 ^ 31 := by omega
    have h2 : (-(2 ^ 31) : Int) ≤ y + -1 ∧ y + -1 < 2 ^ 31 := by omega
    have h3 : (-(2 ^ 31) : Int) ≤ z ∧ z < 2 ^ 31 := by omega
    have hinv : blockAt A.blocks ⟨15, y + -1, z⟩ = none :=
      blockAt_invalid h1 h2 h3 (by simp only [validPos]; omega)
    rw [hinv, hmap0]
    left
    simp [hsb, hz.1, hz.2]

theorem left_ops_shape (hy : -128 ≤ y ∧ y < 128) (hz : 0 ≤ z ∧ z < 16)
    (hoff : A.world_offset = ⟨0, 0⟩) (hsb : sb.is_air = false) :
    nonRightShape (faceOps cmap [A, B] 2 0 A ⟨15, y, z⟩ sb .LEFT) ⟨15, y, z⟩ sb .LEFT := by
  simp only [faceOps, Direction.to_vec3, WChunk.get_block, hoff, add_zero]
  have hv : validPos ⟨15 + -1, y, z⟩ := by
    simp only [validPos]; omega
  rw [blockAt_valid hv]
  cases hnb : A.blocks ((15 : Int) + -1).toNat (y + 128).toNat z.toNat with
  | Air =>
    left
    simp [hsb]
  | Grass =>
    right
    exact ⟨⟨15 + -1, y, z⟩, hv, by simp [V3.mk.injEq], by simp [hsb]⟩
  | Dirt =>
    right
    exact ⟨⟨15 + -1, y, z⟩, hv, by simp [V3.mk.injEq], by simp [hsb]⟩
  | Stone =>
    right
    exact ⟨⟨15 + -1, y, z⟩, hv, by simp [V3.mk.injEq], by simp [hsb]⟩

theorem right_ops_shape (hy : -128 ≤ y ∧ y < 128) (hz : 0 ≤ z ∧ z < 16)
    (hoff : A.world_offset = ⟨0, 0⟩) (hsb : sb.is_air = false)
    (hmap1 : cmap ⟨1, 0⟩ = some 1)
    (hB : ∃ nb : Block, B.get_block ⟨0, y, z⟩ = some nb ∧ nb.is_air = false) :
    faceOps cmap [A, B] 2 0 A ⟨15, y, z⟩ sb .RIGHT = [.rem 1 ⟨0, y, z⟩ .LEFT] := by
  obtain ⟨nb, hnb, hnbair⟩ := hB
  simp only [faceOps, Direction.to_vec3, WChunk.get_block, hoff, add_zero]
  have h1 : (-(2 ^ 31) : Int) ≤ 15 + 1 ∧ (15 : Int) + 1 < 2 ^ 31 := by omega
  have h2 : (-(2 ^ 31) : Int) ≤ y ∧ y < 2 ^ 31 := by omega
  have h3 : (-(2 ^ 31) : Int) ≤ z ∧ z < 2 ^ 31 := by omega
  have hinv : blockAt A.blocks ⟨15 + 1, y, z⟩ = none :=
    blockAt_invalid h1 h2 h3 (by simp only [validPos]; omega)
  rw [hinv, hmap1]
  have hmod : ((15 : Int) + 1) % 16 = 0 := by decide
  rw [WChunk.get_block] at hnb
  simp only [hmod, Int.emod_eq_of_lt hz.1 hz.2, hsb]
  cases nb with
  | Air => cases hnbair
  | Grass => simp [hnb, Direction.get_opposite]
  | Dirt => simp [hnb, Direction.get_opposite]
  | Stone => simp [hnb, Direction.get_opposite]

/-- Operations of a non-RIGHT face never write into the RIGHT-face vertex
slots of the edited cell. -/
theorem nonRightShape_vWrite_none {ops : List MeshOp} {P : V3} {sb : Block}
    {d : Direction} (hs : nonRightShape ops P sb d) (hP : validPos P)
    (hd : d ≠ .RIGHT) {j : Nat} (hj1 : vertSlotBase P .RIGHT ≤ j)
    (hj2 : j < vertSlotBase P .RIGHT + 4) :
    ∀ op ∈ ops, op.vWrite? 0 j = none := by
  have hfP := flatten_3d_lt hP
  have hdi := Direction.index_lt_five_of_ne_right hd
  unfold vertSlotBase at hj1 hj2
  simp only [Direction.index] at hj1 hj2
  rcases hs with h | ⟨v, hv, hvne, h⟩ <;> subst h <;> intro op hop
  · rw [List.mem_singleton] at hop
    subst hop
    apply vWrite?_add_eq_none
    right
    unfold vertSlotBase
    omega
  · have hfv := flatten_3d_lt hv
    have hfne := flatten_3d_ne hv hP hvne
    have hio := Direction.index_le d.get_opposite
    rcases List.mem_cons.mp hop with hop | hop
    · subst hop
      apply vWrite?_rem_eq_none
      right
      unfold vertSlotBase
      omega
    · rw [List.mem_singleton] at hop
      subst hop
      apply vWrite?_rem_eq_none
      right
      unfold vertSlotBase
      omega

/-- Operations of a non-RIGHT face never write into the RIGHT-face index
slots of the edited cell. -/
theorem nonRightShape_iWrite_none {ops : List MeshOp} {P : V3} {sb : Block}
    {d : Direction} (hs : nonRightShape ops P sb d) (hP : validPos P)
    (hd : d ≠ .RIGHT) {j : Nat} (hj1 : idxSlotBase P .RIGHT ≤ j)
    (hj2 : j < idxSlotBase P .RIGHT + 6) :
    ∀ op ∈ ops, op.iWrite? 0 j = none := by
  have hfP := flatten_3d_lt hP
  have hdi := Direction.index_lt_five_of_ne_right hd
  unfold idxSlotBase at hj1 hj2
  simp only [Direction.index] at hj1 hj2
  rcases hs with h | ⟨v, hv, hvne, h⟩ <;> subst h <;> intro op hop
  · rw [List.mem_singleton] at hop
    subst hop
    apply iWrite?_add_eq_none
    right
    unfold idxSlotBase
    omega
  · have hfv := flatten_3d_lt hv
    have hfne := flatten_3d_ne hv hP hvne
    have hio := Direction.index_le d.get_opposite
    rcases List.mem_cons.mp hop with hop | hop
    · subst hop
      apply iWrite?_rem_eq_none
      right
      unfold idxSlotBase
      omega
    · rw [List.mem_singleton] at hop
      subst hop
      apply iWrite?_rem_eq_none
      right
      unfold idxSlotBase
      omega

theorem lastV_append_of_right_some {s s₂ : List MeshOp} {t j : Nat}
    {vv : ChunkVertex} (h : lastV s₂ t j = some vv) :
    lastV (s ++ s₂) t j = some vv := by
  rw [lastV_append, h]
  rfl

theorem lastI_append_of_right_some {s s₂ : List MeshOp} {t j : Nat}
    {vv : Nat} (h : lastI s₂ t j = some vv) :
    lastI (s ++ s₂) t j = some vv := by
  rw [lastI_append, h]
  rfl

/-- C4: two horizontally adjacent registered chunks, A at grid (0,0) (index
0) and B at grid (1,0) (index 1), with B holding a solid block at its
minimum-X edge cell (0,y,z) (the wrap `(16 % 16, y, z % 16)` of A's neighbor
position (16,y,z)).  Writing a solid block at A's maximum-X edge cell
(15,y,z) leaves both shared face slots zero: A's RIGHT slots for that cell
(assumed clear beforehand, i.e. no stale face; the code never writes them)
and B's LEFT slots for the corresponding cell (actively zeroed by the
cross-chunk `remove_face`). -/
theorem C4_cross_chunk_occlusion (y z : Int) (A B : WChunk) (MA MB : MeshBuf)
    (cmap : V2 → Option Nat) (sb : Block)
    (hy : -128 ≤ y ∧ y < 128) (hz : 0 ≤ z ∧ z < 16)
    (hA : A.world_offset = ⟨0, 0⟩)
    (hmap0 : cmap ⟨0, 0⟩ = some 0) (hmap1 : cmap ⟨1, 0⟩ = some 1)
    (hmapelse : ∀ l, l ≠ ⟨0, 0⟩ → l ≠ ⟨1, 0⟩ → cmap l = none)
    (hB : ∃ nb : Block, B.get_block ⟨0, y, z⟩ = some nb ∧ nb.is_air = false)
    (hsb : sb.is_air = false)
    (hMAv : ∀ k, k < 4 →
      MA.verts (vertSlotBase ⟨15, y, z⟩ .RIGHT + k) = ChunkVertex.zero)
    (hMAi : ∀ k, k < 6 →
      MA.inds (idxSlotBase ⟨15, y, z⟩ .RIGHT + k) = 0) :
    (∀ k, k < 4 →
      (((⟨cmap, [A, B], [MA, MB]⟩ : World).set_block 0 ⟨15, y, z⟩ sb).chunk_meshes.getD 0
        (freshMesh 0)).verts (vertSlotBase ⟨15, y, z⟩ .RIGHT + k) = ChunkVertex.zero) ∧
    (∀ k, k < 6 →
      (((⟨cmap, [A, B], [MA, MB]⟩ : World).set_block 0 ⟨15, y, z⟩ sb).chunk_meshes.getD 0
        (freshMesh 0)).inds (idxSlotBase ⟨15, y, z⟩ .RIGHT + k) = 0) ∧
    (∀ k, k < 4 →
      (((⟨cmap, [A, B], [MA, MB]⟩ : World).set_block 0 ⟨15, y, z⟩ sb).chunk_meshes.getD 1
        (freshMesh 0)).verts (vertSlotBase ⟨0, y, z⟩ .LEFT + k) = ChunkVertex.zero) ∧
    (∀ k, k < 6 →
      (((⟨cmap, [A, B], [MA, MB]⟩ : World).set_block 0 ⟨15, y, z⟩ sb).chunk_meshes.getD 1
        (freshMesh 0)).inds (idxSlotBase ⟨0, y, z⟩ .LEFT + k) = 0) := by
  have hP : validPos ⟨15, y, z⟩ := by simp only [validPos]; omega
  have hQ : validPos ⟨0, y, z⟩ := by simp only [validPos]; omega
  have hA'off : (A.set_block ⟨15, y, z⟩ sb).world_offset = ⟨0, 0⟩ := by
    rw [WChunk.set_block_offset, hA]
  have hw : (⟨cmap, [A, B], [MA, MB]⟩ : World).set_block 0 ⟨15, y, z⟩ sb =
      ⟨cmap, [A.set_block ⟨15, y, z⟩ sb, B],
        applyOps [MA, MB]
          (setBlockOps cmap [A.set_block ⟨15, y, z⟩ sb, B] 2 0
            (A.set_block ⟨15, y, z⟩ sb) ⟨15, y, z⟩ sb)⟩ := by
    rw [World.set_block_of_found
      (show (⟨cmap, [A, B], [MA, MB]⟩ : World).chunks[0]? = some A from rfl)]
    rfl
  have hops : setBlockOps cmap [A.set_block ⟨15, y, z⟩ sb, B] 2 0
      (A.set_block ⟨15, y, z⟩ sb) ⟨15, y, z⟩ sb =
      faceOps cmap [A.set_block ⟨15, y, z⟩ sb, B] 2 0
          (A.set_block ⟨15, y, z⟩ sb) ⟨15, y, z⟩ sb .FRONT ++
        (faceOps cmap [A.set_block ⟨15, y, z⟩ sb, B] 2 0
            (A.set_block ⟨15, y, z⟩ sb) ⟨15, y, z⟩ sb .BACK ++
          (faceOps cmap [A.set_block ⟨15, y, z⟩ sb, B] 2 0
              (A.set_block ⟨15, y, z⟩ sb) ⟨15, y, z⟩ sb .TOP ++
            (faceOps cmap [A.set_block ⟨15, y, z⟩ sb, B] 2 0
                (A.set_block ⟨15, y, z⟩ sb) ⟨15, y, z⟩ sb .BOTTOM ++
              (faceOps cmap [A.set_block ⟨15, y, z⟩ sb, B] 2 0
                  (A.set_block ⟨15, y, z⟩ sb) ⟨15, y, z⟩ sb .LEFT ++
                (faceOps cmap [A.set_block ⟨15, y, z⟩ sb, B] 2 0
                    (A.set_block ⟨15, y, z⟩ sb) ⟨15, y, z⟩ sb .RIGHT ++ []))))) :=
    rfl
  have hr := @right_ops_shape y z (A.set_block ⟨15, y, z⟩ sb) B sb cmap
    hy hz hA'off hsb hmap1 hB
  have hsF := @front_ops_shape y z (A.set_block ⟨15, y, z⟩ sb) B sb cmap
    hy hz hA'off hsb hmapelse
  have hsB := @back_ops_shape y z (A.set_block ⟨15, y, z⟩ sb) B sb cmap
    hy hz hA'off hsb hmapelse
  have hsT := @top_ops_shape y z (A.set_block ⟨15, y, z⟩ sb) B sb cmap
    hy hz hA'off hsb hmap0
  have hsBo := @bottom_ops_shape y z (A.set_block ⟨15, y, z⟩ sb) B sb cmap
    hy hz hA'off hsb hmap0
  have hsL := @left_ops_shape y z (A.set_block ⟨15, y, z⟩ sb) B sb cmap
    hy hz hA'off hsb
  -- the RIGHT-face operation list is not able to write mesh 0
  have hRv : ∀ (j : Nat), ∀ op ∈ faceOps cmap [A.set_block ⟨15, y, z⟩ sb, B] 2 0
      (A.set_block ⟨15, y, z⟩ sb) ⟨15, y, z⟩ sb .RIGHT, op.vWrite? 0 j = none := by
    intro j op hop
    rw [hr, List.mem_singleton] at hop
    subst hop
    exact vWrite?_rem_eq_none (Or.inl (by omega))
  have hRi : ∀ (j : Nat), ∀ op ∈ faceOps cmap [A.set_block ⟨15, y, z⟩ sb, B] 2 0
      (A.set_block ⟨15, y, z⟩ sb) ⟨15, y, z⟩ sb .RIGHT, op.iWrite? 0 j = none := by
    intro j op hop
    rw [hr, List.mem_singleton] at hop
    subst hop
    exact iWrite?_rem_eq_none (Or.inl (by omega))
  -- mesh 0: nothing ever writes the RIGHT slots of cell (15,y,z)
  have hAvoidV : ∀ j, vertSlotBase ⟨15, y, z⟩ .RIGHT ≤ j →
      j < vertSlotBase ⟨15, y, z⟩ .RIGHT + 4 →
      lastV (setBlockOps cmap [A.set_block ⟨15, y, z⟩ sb, B] 2 0
        (A.set_block ⟨15, y, z⟩ sb) ⟨15, y, z⟩ sb) 0 j = none := by
    intro j hj1 hj2
    rw [hops]
    apply lastV_eq_none
    intro op hop
    simp only [List.mem_append, List.append_nil] at hop
    rcases hop with h | h | h | h | h | h
    · exact nonRightShape_vWrite_none hsF hP (by decide) hj1 hj2 op h
    · exact nonRightShape_vWrite_none hsB hP (by decide) hj1 hj2 op h
    · exact nonRightShape_vWrite_none hsT hP (by decide) hj1 hj2 op h
    · exact nonRightShape_vWrite_none hsBo hP (by decide) hj1 hj2 op h
    · exact nonRightShape_vWrite_none hsL hP (by decide) hj1 hj2 op h
    · exact hRv j op h
  have hAvoidI : ∀ j, idxSlotBase ⟨15, y, z⟩ .RIGHT ≤ j →
      j < idxSlotBase ⟨15, y, z⟩ .RIGHT + 6 →
      lastI (setBlockOps cmap [A.set_block ⟨15, y, z⟩ sb, B] 2 0
        (A.set_block ⟨15, y, z⟩ sb) ⟨15, y, z⟩ sb) 0 j = none := by
    intro j hj1 hj2
    rw [hops]
    apply lastI_eq_none
    intro op hop
    simp only [List.mem_append, List.append_nil] at hop
    rcases hop with h | h | h | h | h | h
    · exact nonRightShape_iWrite_none hsF hP (by decide) hj1 hj2 op h
    · exact nonRightShape_iWrite_none hsB hP (by decide) hj1 hj2 op h
    · exact nonRightShape_iWrite_none hsT hP (by decide) hj1 hj2 op h
    · exact nonRightShape_iWrite_none hsBo hP (by decide) hj1 hj2 op h
    · exact nonRightShape_iWrite_none hsL hP (by decide) hj1 hj2 op h
    · exact hRi j op h
  -- mesh 1: the RIGHT-face removal is the last writer of B's LEFT slots
  have hBlastV : ∀ j, vertSlotBase ⟨0, y, z⟩ .LEFT ≤ j →
      j < vertSlotBase ⟨0, y, z⟩ .LEFT + 4 →
      lastV (setBlockOps cmap [A.set_block ⟨15, y, z⟩ sb, B] 2 0
        (A.set_block ⟨15, y, z⟩ sb) ⟨15, y, z⟩ sb) 1 j = some ChunkVertex.zero := by
    intro j hj1 hj2
    rw [hops, hr]
    apply lastV_append_of_right_some
    apply lastV_append_of_right_some
    apply lastV_append_of_right_some
    apply lastV_append_of_right_some
    apply lastV_append_of_right_some
    show (MeshOp.rem 1 ⟨0, y, z⟩ .LEFT).vWrite? 1 j = some ChunkVertex.zero
    exact vWrite?_rem_eq_zero ⟨hj1, hj2⟩
  have hBlastI : ∀ j, idxSlotBase ⟨0, y, z⟩ .LEFT ≤ j →
      j < idxSlotBase ⟨0, y, z⟩ .LEFT + 6 →
      lastI (setBlockOps cmap [A.set_block ⟨15, y, z⟩ sb, B] 2 0
        (A.set_block ⟨15, y, z⟩ sb) ⟨15, y, z⟩ sb) 1 j = some 0 := by
    intro j hj1 hj2
    rw [hops, hr]
    apply lastI_append_of_right_some
    apply lastI_append_of_right_some
    apply lastI_append_of_right_some
    apply lastI_append_of_right_some
    apply lastI_append_of_right_some
    show (MeshOp.rem 1 ⟨0, y, z⟩ .LEFT).iWrite? 1 j = some 0
    exact iWrite?_rem_eq_zero ⟨hj1, hj2⟩
  -- extract the two final meshes from the characterization
  have hm0 : (applyOps [MA, MB]
      (setBlockOps cmap [A.set_block ⟨15, y, z⟩ sb, B] 2 0
        (A.set_block ⟨15, y, z⟩ sb) ⟨15, y, z⟩ sb)).getD 0 (freshMesh 0) =
      MA.ovr (lastV (setBlockOps cmap [A.set_block ⟨15, y, z⟩ sb, B] 2 0
          (A.set_block ⟨15, y, z⟩ sb) ⟨15, y, z⟩ sb) 0)
        (lastI (setBlockOps cmap [A.set_block ⟨15, y, z⟩ sb, B] 2 0
          (A.set_block ⟨15, y, z⟩ sb) ⟨15, y, z⟩ sb) 0) := by
    rw [List.getD_eq_getElem?_getD, applyOps_getElem?]
    rfl
  have hm1 : (applyOps [MA, MB]
      (setBlockOps cmap [A.set_block ⟨15, y, z⟩ sb, B] 2 0
        (A.set_block ⟨15, y, z⟩ sb) ⟨15, y, z⟩ sb)).getD 1 (freshMesh 0) =
      MB.ovr (lastV (setBlockOps cmap [A.set_block ⟨15, y, z⟩ sb, B] 2 0
          (A.set_block ⟨15, y, z⟩ sb) ⟨15, y, z⟩ sb) 1)
        (lastI (setBlockOps cmap [A.set_block ⟨15, y, z⟩ sb, B] 2 0
          (A.set_block ⟨15, y, z⟩ sb) ⟨15, y, z⟩ sb) 1) := by
    rw [List.getD_eq_getElem?_getD, applyOps_getElem?]
    rfl
  rw [hw]
  refine ⟨?_, ?_, ?_, ?_⟩
  · intro k hk
    show ((applyOps [MA, MB] _).getD 0 (freshMesh 0)).verts _ = _
    rw [hm0]
    show (lastV _ 0 (vertSlotBase ⟨15, y, z⟩ .RIGHT + k)).getD
      (MA.verts (vertSlotBase ⟨15, y, z⟩ .RIGHT + k)) = _
    rw [hAvoidV _ (by omega) (by omega)]
    exact hMAv k hk
  · intro k hk
    show ((applyOps [MA, MB] _).getD 0 (freshMesh 0)).inds _ = _
    rw [hm0]
    show (lastI _ 0 (idxSlotBase ⟨15, y, z⟩ .RIGHT + k)).getD
      (MA.inds (idxSlotBase ⟨15, y, z⟩ .RIGHT + k)) = _
    rw [hAvoidI _ (by omega) (by omega)]
    exact hMAi k hk
  · intro k hk
    show ((applyOps [MA, MB] _).getD 1 (freshMesh 0)).verts _ = _
    rw [hm1]
    show (lastV _ 1 (vertSlotBase ⟨0, y, z⟩ .LEFT + k)).getD
      (MB.verts (vertSlotBase ⟨0, y, z⟩ .LEFT + k)) = _
    rw [hBlastV _ (by omega) (by omega)]
    rfl
  · intro k hk
    show ((applyOps [MA, MB] _).getD 1 (freshMesh 0)).inds _ = _
    rw [hm1]
    show (lastI _ 1 (idxSlotBase ⟨0, y, z⟩ .LEFT + k)).getD
      (MB.inds (idxSlotBase ⟨0, y, z⟩ .LEFT + k)) = _
    rw [hBlastI _ (by omega) (by omega)]
    rfl

end CrossChunk

/-- A chunk for grid coordinate (1,0) holding Stone at local (0,0,5) (array
indices (0, 128, 5)) and Air everywhere else. -/
def chunkBsolid : WChunk :=
  { blocks := fun a b c => if a = 0 ∧ b = 128 ∧ c = 5 then .Stone else .Air
    world_offset := ⟨1, 0⟩ }

/-- The chunk map of the two-chunk scenario: (0,0) ↦ 0, (1,0) ↦ 1. -/
def cmapAB : V2 → Option Nat :=
  fun l => if l = ⟨0, 0⟩ then some 0 else if l = ⟨1, 0⟩ then some 1 else none

/-- Witness for C4 at y = 0, z = 5 with fresh meshes: A's RIGHT vertex slot
stays zero and B's LEFT index slot is zero after the edit. -/
theorem C4_cross_chunk_occlusion_witness :
    (((⟨cmapAB, [freshWChunk ⟨0, 0⟩, chunkBsolid], [freshMesh 0, freshMesh 1]⟩ : World).set_block
          0 ⟨15, 0, 5⟩ .Stone).chunk_meshes.getD 0 (freshMesh 0)).verts
        (vertSlotBase ⟨15, 0, 5⟩ .RIGHT + 0) = ChunkVertex.zero ∧
    (((⟨cmapAB, [freshWChunk ⟨0, 0⟩, chunkBsolid], [freshMesh 0, freshMesh 1]⟩ : World).set_block
          0 ⟨15, 0, 5⟩ .Stone).chunk_meshes.getD 1 (freshMesh 0)).inds
        (idxSlotBase ⟨0, 0, 5⟩ .LEFT + 0) = 0 :=
  ⟨(C4_cross_chunk_occlusion 0 5 (freshWChunk ⟨0, 0⟩) chunkBsolid (freshMesh 0) (freshMesh 1)
      cmapAB .Stone (by decide) (by decide) rfl rfl rfl
      (by
        intro l h1 h2
        show (if l = ⟨0, 0⟩ then some 0 else if l = ⟨1, 0⟩ then some 1 else none) = none
        rw [if_neg h1, if_neg h2])
      ⟨.Stone, by decide, rfl⟩ rfl (by intro k hk; rfl) (by intro k hk; rfl)).1 0 (by decide),
    (C4_cross_chunk_occlusion 0 5 (freshWChunk ⟨0, 0⟩) chunkBsolid (freshMesh 0) (freshMesh 1)
      cmapAB .Stone (by decide) (by decide) rfl rfl rfl
      (by
        intro l h1 h2
        show (if l = ⟨0, 0⟩ then some 0 else if l = ⟨1, 0⟩ then some 1 else none) = none
        rw [if_neg h1, if_neg h2])
      ⟨.Stone, by decide, rfl⟩ rfl (by intro k hk; rfl) (by intro k hk; rfl)).2.2.2 0 (by decide)⟩

end Voxel
